import Mathlib

/-!
Verification of the whisper-query-parser transcription/query pipeline.

Shallow embedding of the repository's core logic:
  * `src/audio_processing/optimizer.py` (`split_audio`, `optimize_whisper_config`)
  * `src/app.py` (`transcribe_audio` orchestration: 30 MB branch, text joining)
  * `src/utils/transcription.py` (`WhisperTranscriber.transcribe` retry logic)
  * `src/utils/query_generation.py` (`QueryGenerator.generate_query`)

Python builtin string operations that the source uses (`in`, `str.split`,
`str.strip`, `str.lower`, slicing `[:200]`) are modelled as structurally
recursive functions on `List Char`, so that every definition is kernel
reducible.  `json.loads` (Python standard library) is modelled by a fuel
based recursive descent parser over the JSON grammar; numeric literals with
a fraction or exponent are kept as their literal text (`Json.numLit`),
since floating point values are outside the embedding; integer literals
are parsed exactly.
-/

/-- `leadsWith s p = true` iff the char list `p` is an initial segment of `s`.
Models the prefix test used to implement Python substring search. -/
def leadsWith : List Char → List Char → Bool
  | _, [] => true
  | [], _ :: _ => false
  | c :: cs, d :: ds => c == d && leadsWith cs ds

/-- `hasSub s sub = true` iff `sub` occurs contiguously inside `s`.
Together with `pyContains` this models Python's `sub in s` on strings. -/
def hasSub : List Char → List Char → Bool
  | [], sub => sub.isEmpty
  | c :: cs, sub => leadsWith (c :: cs) sub || hasSub cs sub

/-- Python `sub in s` for strings (substring containment). -/
def pyContains (s sub : String) : Bool :=
  hasSub s.data sub.data

/-- Auxiliary for `pySplit`: scans the input left to right; each time the
separator matches, closes the current chunk and skips the separator.
`fuel` bounds the recursion; it is instantiated with the input length, which
is enough because every step consumes at least one character. -/
def pySplitAux (sep : List Char) : Nat → List Char → List Char → List (List Char)
  | _, acc, [] => [acc.reverse]
  | 0, acc, rest => [acc.reverse ++ rest]
  | fuel + 1, acc, c :: cs =>
    if leadsWith (c :: cs) sep then
      acc.reverse :: pySplitAux sep fuel [] (List.drop (sep.length - 1) cs)
    else
      pySplitAux sep fuel (c :: acc) cs

/-- Python `s.split(sep)` for a non-empty separator: splits on every
non-overlapping occurrence of `sep`, left to right. -/
def pySplit (s sep : String) : List String :=
  (pySplitAux sep.data s.data.length [] s.data).map String.mk

/-- Python whitespace as stripped by `str.strip()` (ASCII part). -/
def isPyWs (c : Char) : Bool :=
  c == ' ' || c == '\t' || c == '\n' || c == '\r' || c == '\x0b' || c == '\x0c'

/-- Python `s.strip()`: removes leading and trailing whitespace. -/
def pyStrip (s : String) : String :=
  String.mk (((s.data.dropWhile isPyWs).reverse.dropWhile isPyWs).reverse)

/-- Python slicing `s[:n]` on strings: the first `n` characters. -/
def pyTake (n : Nat) (s : String) : String :=
  String.mk (s.data.take n)

/-- Python `s.lower()` (ASCII part; the source only compares against ASCII
literals such as "auto-detect" and "language"). -/
def pyLower (s : String) : String :=
  String.mk (s.data.map Char.toLower)

/-! ## JSON values and a model of `json.loads` -/

/-- JSON values as produced by Python's `json.loads`.  Objects keep their
members in source order (the claims never involve duplicate keys).
`numLit` holds the literal text of a number with a fraction or exponent
part (a Python float), whose numeric value is not modelled. -/
inductive Json where
  | null : Json
  | bool (b : Bool) : Json
  | num (n : Int) : Json
  | numLit (lit : String) : Json
  | str (s : String) : Json
  | arr (elements : List Json) : Json
  | obj (members : List (String × Json)) : Json

/-- JSON insignificant whitespace. -/
def isJsonWs (c : Char) : Bool :=
  c == ' ' || c == '\t' || c == '\n' || c == '\r'

/-- Skip JSON whitespace. -/
def skipJsonWs (s : List Char) : List Char :=
  s.dropWhile isJsonWs

/-- Decode a JSON string body after the opening quote; returns the decoded
characters and the remaining input after the closing quote.  Handles the
standard escapes; `\uXXXX` is decoded as a single scalar value (surrogate
pairs are not merged; the repository's data contains none). -/
def jsonStringBody : List Char → Option (List Char × List Char)
  | [] => none
  | '"' :: rest => some ([], rest)
  | '\\' :: e :: rest =>
    match e with
    | '"' => (jsonStringBody rest).map (fun p => ('"' :: p.1, p.2))
    | '\\' => (jsonStringBody rest).map (fun p => ('\\' :: p.1, p.2))
    | '/' => (jsonStringBody rest).map (fun p => ('/' :: p.1, p.2))
    | 'b' => (jsonStringBody rest).map (fun p => ('\x08' :: p.1, p.2))
    | 'f' => (jsonStringBody rest).map (fun p => ('\x0c' :: p.1, p.2))
    | 'n' => (jsonStringBody rest).map (fun p => ('\n' :: p.1, p.2))
    | 'r' => (jsonStringBody rest).map (fun p => ('\r' :: p.1, p.2))
    | 't' => (jsonStringBody rest).map (fun p => ('\t' :: p.1, p.2))
    | 'u' =>
      match rest with
      | h1 :: h2 :: h3 :: h4 :: rest4 =>
        let hv := fun (c : Char) =>
          if '0' ≤ c ∧ c ≤ '9' then some (c.toNat - '0'.toNat)
          else if 'a' ≤ c ∧ c ≤ 'f' then some (c.toNat - 'a'.toNat + 10)
          else if 'A' ≤ c ∧ c ≤ 'F' then some (c.toNat - 'A'.toNat + 10)
          else none
        match hv h1, hv h2, hv h3, hv h4 with
        | some a, some b, some c, some d =>
          (jsonStringBody rest4).map
            (fun p => (Char.ofNat (((a * 16 + b) * 16 + c) * 16 + d) :: p.1, p.2))
        | _, _, _, _ => none
      | _ => none
    | _ => none
  | c :: rest => (jsonStringBody rest).map (fun p => (c :: p.1, p.2))

/-- Decimal digit test. -/
def isJsonDigit (c : Char) : Bool := '0' ≤ c && c ≤ '9'

/-- Read the digits of a JSON integer part as a `Nat` (digits already
validated non-empty by the caller). -/
def digitsToNat (ds : List Char) : Nat :=
  ds.foldl (fun acc c => acc * 10 + (c.toNat - '0'.toNat)) 0

/-- Parse a JSON number starting at `s` (first char is `-` or a digit).
Returns the value and the rest.  Grammar as in RFC 8259 / Python `json`:
optional minus, integer part without leading zeros, optional fraction,
optional exponent.  Pure integers become `Json.num`; numbers with a
fraction or exponent become `Json.numLit` carrying their literal text. -/
def jsonNumber (s : List Char) : Option (Json × List Char) :=
  let neg := leadsWith s ['-']
  let s1 := if neg then s.drop 1 else s
  let intDigits := s1.takeWhile isJsonDigit
  let afterInt := s1.dropWhile isJsonDigit
  if intDigits.isEmpty then none
  else if intDigits.length > 1 && leadsWith intDigits ['0'] then none
  else
    let fracDigits := if leadsWith afterInt ['.'] then (afterInt.drop 1).takeWhile isJsonDigit else []
    let hasFrac := leadsWith afterInt ['.']
    let afterFrac := if hasFrac then (afterInt.drop 1).dropWhile isJsonDigit else afterInt
    if hasFrac && fracDigits.isEmpty then none
    else
      let hasExp := leadsWith afterFrac ['e'] || leadsWith afterFrac ['E']
      if hasExp then
        let s2 := afterFrac.drop 1
        let s3 := if leadsWith s2 ['+'] || leadsWith s2 ['-'] then s2.drop 1 else s2
        let expDigits := s3.takeWhile isJsonDigit
        let afterExp := s3.dropWhile isJsonDigit
        if expDigits.isEmpty then none
        else
          let lit := s.take (s.length - afterExp.length)
          some (Json.numLit (String.mk lit), afterExp)
      else if hasFrac then
        let lit := s.take (s.length - afterFrac.length)
        some (Json.numLit (String.mk lit), afterFrac)
      else
        let v : Int := Int.ofNat (digitsToNat intDigits)
        some (Json.num (if neg then -v else v), afterInt)

mutual

/-- Parse one JSON value; returns the value and the remaining input.
`fuel` bounds the nesting recursion. -/
def jsonValue : Nat → List Char → Option (Json × List Char)
  | 0, _ => none
  | fuel + 1, s =>
    match skipJsonWs s with
    | [] => none
    | c :: cs =>
      if c == '"' then
        (jsonStringBody cs).map (fun p => (Json.str (String.mk p.1), p.2))
      else if c == '[' then
        match skipJsonWs cs with
        | ']' :: rest => some (Json.arr [], rest)
        | s1 =>
          match jsonValue fuel s1 with
          | none => none
          | some (v, rest) =>
            (jsonArrayTail fuel rest).map (fun p => (Json.arr (v :: p.1), p.2))
      else if c == '{' then
        match skipJsonWs cs with
        | '}' :: rest => some (Json.obj [], rest)
        | s1 =>
          match jsonMember fuel s1 with
          | none => none
          | some (kv, rest) =>
            (jsonObjectTail fuel rest).map (fun p => (Json.obj (kv :: p.1), p.2))
      else if leadsWith (c :: cs) ['t', 'r', 'u', 'e'] then
        some (Json.bool true, (c :: cs).drop 4)
      else if leadsWith (c :: cs) ['f', 'a', 'l', 's', 'e'] then
        some (Json.bool false, (c :: cs).drop 5)
      else if leadsWith (c :: cs) ['n', 'u', 'l', 'l'] then
        some (Json.null, (c :: cs).drop 4)
      else if leadsWith (c :: cs) ['N', 'a', 'N'] then
        some (Json.numLit "NaN", (c :: cs).drop 3)
      else if leadsWith (c :: cs) ['I', 'n', 'f', 'i', 'n', 'i', 't', 'y'] then
        some (Json.numLit "Infinity", (c :: cs).drop 8)
      else if leadsWith (c :: cs) ['-', 'I', 'n', 'f', 'i', 'n', 'i', 't', 'y'] then
        some (Json.numLit "-Infinity", (c :: cs).drop 9)
      else
        jsonNumber (c :: cs)

/-- Parse the continuation of an array after one element: either `]` or
`, value` repeated. -/
def jsonArrayTail : Nat → List Char → Option (List Json × List Char)
  | 0, _ => none
  | fuel + 1, s =>
    match skipJsonWs s with
    | ']' :: rest => some ([], rest)
    | ',' :: rest =>
      match jsonValue fuel rest with
      | none => none
      | some (v, rest1) =>
        (jsonArrayTail fuel rest1).map (fun p => (v :: p.1, p.2))
    | _ => none

/-- Parse one `"key": value` member of an object. -/
def jsonMember : Nat → List Char → Option ((String × Json) × List Char)
  | 0, _ => none
  | fuel + 1, s =>
    match skipJsonWs s with
    | '"' :: cs =>
      match jsonStringBody cs with
      | none => none
      | some (key, rest) =>
        match skipJsonWs rest with
        | ':' :: rest1 =>
          (jsonValue fuel rest1).map (fun p => ((String.mk key, p.1), p.2))
        | _ => none
    | _ => none

/-- Parse the continuation of an object after one member: either `}` or
`, member` repeated. -/
def jsonObjectTail : Nat → List Char → Option (List (String × Json) × List Char)
  | 0, _ => none
  | fuel + 1, s =>
    match skipJsonWs s with
    | '}' :: rest => some ([], rest)
    | ',' :: rest =>
      match jsonMember fuel rest with
      | none => none
      | some (kv, rest1) =>
        (jsonObjectTail fuel rest1).map (fun p => (kv :: p.1, p.2))
    | _ => none

end

/-- Model of Python `json.loads`: parse one JSON document; fail (`none`,
modelling the raised `json.JSONDecodeError`) if the text is not a single
JSON value surrounded only by whitespace. -/
def json_loads (s : String) : Option Json :=
  match jsonValue (2 * s.data.length + 4) s.data with
  | none => none
  | some (v, rest) => if (skipJsonWs rest).isEmpty then some v else none

/-! ## `src/audio_processing/optimizer.py` -/

/-- `split_audio(audio_array, sample_rate, segment_length_sec)` from
`src/audio_processing/optimizer.py`.

`segment_length = segment_length_sec * sample_rate`;
`num_segments = len(audio_array) // segment_length`; the loop appends the
slices `audio_array[i*segment_length : (i+1)*segment_length]`; if
`len(audio_array) % segment_length > 0` the tail
`audio_array[num_segments*segment_length:]` is appended.  When
`segment_length = 0` the Python `//` and `%` raise `ZeroDivisionError`,
modelled by `none`. -/
def split_audio {α : Type} (audio_array : List α) (sample_rate : Nat)
    (segment_length_sec : Nat) : Option (List (List α)) :=
  let segment_length := segment_length_sec * sample_rate
  if segment_length = 0 then none
  else
    let num_segments := audio_array.length / segment_length
    let segments := (List.range num_segments).map
      (fun i => (audio_array.drop (i * segment_length)).take segment_length)
    if audio_array.length % segment_length > 0 then
      some (segments ++ [audio_array.drop (num_segments * segment_length)])
    else
      some segments

/-- The inference configuration dictionary returned by
`optimize_whisper_config` (keys `batch_size`, `compute_type`, `beam_size`).
The spec's `InferenceConfig.precision` enum values correspond to the code's
`compute_type` strings: `fp16` is `"float16"` and `int8` is `"int8"`. -/
structure WhisperConfig where
  batch_size : Nat
  compute_type : String
  beam_size : Nat
deriving DecidableEq, Repr

/-- `optimize_whisper_config(file_size_mb)` from
`src/audio_processing/optimizer.py`: starts from the default configuration
and overrides it for `file_size_mb > 100`, then `file_size_mb > 50`.
File sizes are modelled as exact rationals (only comparisons occur). -/
def optimize_whisper_config (file_size_mb : ℚ) : WhisperConfig :=
  let config : WhisperConfig := ⟨16, "float16", 5⟩
  if file_size_mb > 100 then
    { config with batch_size := 8, compute_type := "int8", beam_size := 3 }
  else if file_size_mb > 50 then
    { config with batch_size := 12, compute_type := "float16", beam_size := 4 }
  else
    config

/-! ## `src/app.py` (`transcribe_audio` orchestration) -/

/-- The large-file test in `transcribe_audio` (`src/app.py`):
`if file_size_mb > 30`. -/
def is_large_file (file_size_mb : ℚ) : Bool :=
  file_size_mb > 30

/-- Sample rate passed by `transcribe_audio` to `split_audio`
(`split_audio(audio, sample_rate=16000, segment_length_sec=30)`). -/
def APP_SAMPLE_RATE : Nat := 16000

/-- Segment length passed by `transcribe_audio` to `split_audio`. -/
def APP_SEGMENT_LENGTH_SEC : Nat := 30

/-- The text accumulation of the large-file branch of `transcribe_audio`
(`src/app.py`): `full_result["text"] = ""`, then for each segment result
`full_result["text"] += result["text"] + " "`.  Input: the per-segment
transcription texts in original order. -/
def transcribe_segments_text (segment_texts : List String) : String :=
  segment_texts.foldl (fun acc t => acc ++ t ++ " ") ""

/-- Modelled from the claim's words for comparison: the texts joined in
order with a single space separator and no leading or trailing separator,
`t1 ++ " " ++ t2 ++ ... ++ " " ++ tn`. -/
def spaceJoined : List String → String
  | [] => ""
  | [t] => t
  | t :: rest => t ++ " " ++ spaceJoined rest

/-! ## `src/utils/transcription.py` (`WhisperTranscriber.transcribe`) -/

/-- `TranscriptionResult` (pydantic model) from `src/utils/transcription.py`.
Segment entries are kept abstract as strings; `duration` is an exact
rational stand-in for the float field (never computed with here). -/
structure TranscriptionResult where
  text : String
  language : Option String
  segments : Option (List String)
  duration : ℚ

/-- The language-option guard in `WhisperTranscriber.transcribe`:
`if language and language.lower() != "auto-detect" and language != "None"`,
i.e. the `options` dict contains the language iff the argument is a
non-empty string other than (case-insensitively) "auto-detect" and other
than (case-sensitively) "None". -/
def language_options (language : Option String) : Option String :=
  match language with
  | none => none
  | some s =>
    if s == "" then none
    else if pyLower s == "auto-detect" then none
    else if s == "None" then none
    else some s

/-- The retry condition in `WhisperTranscriber.transcribe`:
`"language" in str(e).lower()`. -/
def error_indicates_language (e : String) : Bool :=
  pyContains (pyLower e) "language"

/-- The `try/except` of `WhisperTranscriber.transcribe`
(`src/utils/transcription.py` lines 69-76), instrumented with the list of
calls made to the underlying model (each recorded as the language option it
received).  The underlying `self.model.transcribe` is the oracle `model`:
`.ok` a result dict (already shaped as `TranscriptionResult`), `.error e`
an exception with message `e`.  On an error whose message contains
"language" (case-insensitively), one retry with no options is issued and
its outcome — success or failure — is final; every other error is
re-raised unchanged. -/
def transcribe_calls (model : Option String → Except String TranscriptionResult)
    (language : Option String) :
    Except String TranscriptionResult × List (Option String) :=
  let opts := language_options language
  match model opts with
  | Except.ok r => (Except.ok r, [opts])
  | Except.error e =>
    if error_indicates_language e then
      (model none, [opts, none])
    else
      (Except.error e, [opts])

/-- `WhisperTranscriber.transcribe` outcome (the instrumented call trace
dropped). -/
def transcribe (model : Option String → Except String TranscriptionResult)
    (language : Option String) : Except String TranscriptionResult :=
  (transcribe_calls model language).1

/-! ## `src/utils/query_generation.py` (`QueryGenerator.generate_query`) -/

/-- The fate of the optional `image_path` argument of `generate_query`:
absent (`None`/empty), a path for which `os.path.exists` is false, a path
whose `Image.open` raises, or a readable image (abstracted as a numeric
handle). -/
inductive ImageInput where
  | noPath : ImageInput
  | missing (path : String) : ImageInput
  | unreadable (path : String) : ImageInput
  | readable (path : String) (img : Nat) : ImageInput

/-- One element of the `content` list passed to
`self.model.generate_content`. -/
inductive ContentPart where
  | text (s : String) : ContentPart
  | image (img : Nat) : ContentPart
deriving DecidableEq, Repr

/-- The prompt of `generate_query`: the `prompt` list joined with
`"\n".join(prompt)`.  The block at source lines 69-75 is a single Python
string formed by implicit literal concatenation (no commas between those
lines). -/
def promptText (transcript : String) : String :=
  String.intercalate "\n"
    [ "Transform the following transcribed speech into a structured query for a fashion e-commerce API.",
      "The result should be a simple JSON object that captures the key product requirements.",
      "Descriptions for the products should be concise and to the point, avoid adding properties like same as the image, just use the color of the product in the image, descriptions cant be FC Barcelona T-shirt, FC Barcelona Jersey, etc.",
      "For clothing items, extract: product type, color, price range if mentioned, and any other relevant attributes.",
      "If the user mentions modifications to items shown in the image, make those changes explicit in the query.",
      "If the user says something like I want this with the same color, make that change explicit in the query after watching the product color on the image.",
      "Focus only on actionable shopping criteria and ignore conversational elements.",
      "\nTranscribed text: " ++ transcript ++ "\n",
      "Return ONLY a valid JSON object with no additional explanation, fields or text.",
      "The JSON should be formatted as follows:",
      "```json",
      "\x7b  \"items\": [    \x7b\"description\": \"string\", \"max_price\": number\x7d,    \x7b\"description\": \"string\", \"max_price\": number\x7d  ]\x7d",
      "```" ]

/-- The `content` list built by `generate_query`: the joined prompt, plus
the image iff `image_path` is truthy, `os.path.exists` holds and
`Image.open` succeeds.  A missing path is skipped by the `if` guard; an
unreadable image's exception is caught, printed and ignored. -/
def buildContent (transcript : String) (image : ImageInput) : List ContentPart :=
  match image with
  | ImageInput.readable _ img => [ContentPart.text (promptText transcript), ContentPart.image img]
  | _ => [ContentPart.text (promptText transcript)]

/-- The fence handling of `generate_query`
(`src/utils/query_generation.py` lines 96-101):
if `"```json" in response_text`, take
`response_text.split("```json")[1].split("```")[0].strip()`;
elif `"```" in response_text`, take
`response_text.split("```")[1].split("```")[0].strip()`;
else leave `response_text` unchanged.  (The guards make the `[1]` index
valid, so the `getD` default is never used.) -/
def extract_response_text (response_text : String) : String :=
  if pyContains response_text "```json" then
    pyStrip (((pySplit ((pySplit response_text "```json").getD 1 "") "```").getD 0 ""))
  else if pyContains response_text "```" then
    pyStrip (((pySplit ((pySplit response_text "```").getD 1 "") "```").getD 0 ""))
  else
    response_text

/-- Modelled from the spec's words (§4.5 response normalization): case 1,
the content between the first "```json" fence and the next "```" fence;
case 2, the content between the first pair of "```" fences; case 3, the
full reply text unmodified.  The spec's wording mentions no whitespace
stripping. -/
def spec_extract (response_text : String) : String :=
  if pyContains response_text "```json" then
    ((pySplit ((pySplit response_text "```json").getD 1 "") "```").getD 0 "")
  else if pyContains response_text "```" then
    ((pySplit ((pySplit response_text "```").getD 1 "") "```").getD 0 "")
  else
    response_text

/-- `QueryGenerator.generate_query(transcript, image_path)`
(`src/utils/query_generation.py` lines 45-119).  The underlying
`self.model.generate_content` is the oracle `model`, a function of the
`content` list: `.ok reply` delivers `response.text`, `.error e` an
exception with message `e` raised by the invocation.  The whole model
call, fence cleanup and JSON parse sit inside `try/except Exception`, so
the function always returns a value:
  * parse success: the parsed JSON, returned as-is;
  * `json.JSONDecodeError`: the parse-failure payload, whose
    `raw_response` is `response_text[:200]` where `response_text` has
    already been rebound to the fence-stripped text;
  * any exception: the generation-failure payload. -/
def generate_query (model : List ContentPart → Except String String)
    (transcript : String) (image_path : ImageInput) : Json :=
  let content := buildContent transcript image_path
  match model content with
  | Except.error e =>
    Json.obj [("error", Json.str ("Failed to generate query: " ++ e)),
              ("transcript", Json.str transcript)]
  | Except.ok response_text =>
    let cleaned := extract_response_text response_text
    match json_loads cleaned with
    | some query_data => query_data
    | none =>
      Json.obj [("error", Json.str "Could not parse response as JSON"),
                ("transcript", Json.str transcript),
                ("raw_response", Json.str (pyTake 200 cleaned))]

/-- First binding of a key in a JSON object member list. -/
def lookupMember : List (String × Json) → String → Option Json
  | [], _ => none
  | (k, v) :: rest, key => if k == key then some v else lookupMember rest key

/-- Is `j` a JSON string? -/
def isJsonStr : Json → Bool
  | Json.str _ => true
  | _ => false

/-- Is `j` a JSON number? -/
def isJsonNum : Json → Bool
  | Json.num _ => true
  | Json.numLit _ => true
  | _ => false

/-- The spec's success shape (§3 `QueryResult`):
`\x7bitems: sequence of \x7bdescription: string, max_price: number, ...\x7d\x7d`. -/
def isSuccessPayload : Json → Bool
  | Json.obj members =>
    match lookupMember members "items" with
    | some (Json.arr items) =>
      items.all (fun item =>
        match item with
        | Json.obj fields =>
          (match lookupMember fields "description" with
           | some d => isJsonStr d
           | none => false) &&
          (match lookupMember fields "max_price" with
           | some p => isJsonNum p
           | none => false)
        | _ => false)
    | _ => false
  | _ => false

/-- The spec's error shape (§3 `QueryResult`):
`\x7berror: string, transcript: string, raw_response?: string\x7d`. -/
def isErrorPayload : Json → Bool
  | Json.obj members =>
    (match lookupMember members "error" with
     | some e => isJsonStr e
     | none => false) &&
    (match lookupMember members "transcript" with
     | some t => isJsonStr t
     | none => false) &&
    (match lookupMember members "raw_response" with
     | some r => isJsonStr r
     | none => true) &&
    members.all (fun kv => kv.1 == "error" || kv.1 == "transcript" || kv.1 == "raw_response")
  | _ => false

/-! ## Helper lemmas -/

/-- If a char list starts with `p ++ q` it starts with `p`. -/
theorem leadsWith_append_left (p q : List Char) :
    ∀ s : List Char, leadsWith s (p ++ q) = true → leadsWith s p = true := by
  induction p with
  | nil => intro s _; cases s <;> rfl
  | cons d ds ih =>
    intro s h
    cases s with
    | nil => simp [leadsWith] at h
    | cons c cs =>
      simp only [List.cons_append, leadsWith, Bool.and_eq_true] at h ⊢
      exact ⟨h.1, ih cs h.2⟩

/-- If `p ++ q` occurs in `s` then `p` occurs in `s`. -/
theorem hasSub_append_left (p q : List Char) :
    ∀ s : List Char, hasSub s (p ++ q) = true → hasSub s p = true := by
  intro s
  induction s with
  | nil =>
    simp only [hasSub, List.isEmpty_iff, List.append_eq_nil]
    intro h
    simp [h.1]
  | cons c cs ih =>
    simp only [hasSub, Bool.or_eq_true]
    rintro (h | h)
    · exact Or.inl (leadsWith_append_left p q _ h)
    · exact Or.inr (ih h)

/-- A reply containing the "```json" fence contains the bare "```" fence. -/
theorem pyContains_ticks_of_json (r : String) :
    pyContains r "```json" = true → pyContains r "```" = true := by
  intro h
  have : ("```".data ++ "json".data) = "```json".data := rfl
  exact hasSub_append_left "```".data "json".data r.data (by rw [this]; exact h)

/-- On a fence-free reply the cleanup of `generate_query` is the identity. -/
theorem extract_response_text_no_fence (r : String)
    (h : pyContains r "```" = false) : extract_response_text r = r := by
  have hj : pyContains r "```json" = false := by
    cases hj : pyContains r "```json" with
    | false => rfl
    | true => rw [pyContains_ticks_of_json r hj] at h; cases h
  simp [extract_response_text, h, hj]

/-! ## Claims -/

/-- C2: `optimize_whisper_config` is a pure function of `file_size_mb` with
three half-open tiers (`> 100` gives batch 8 / int8 / beam 3; `50 < s ≤ 100`
gives 12 / float16 / beam 4; `≤ 50` gives 16 / float16 / beam 5); exactly
100 MB selects the middle tier; a 120 MB file gets the `> 100` tier and the
orchestration pipeline (threshold 30 MB) takes the segment-splitting
branch.  The spec's `precision` values `fp16`/`int8` are the code's
`compute_type` strings `"float16"`/`"int8"`. -/
theorem optimize_whisper_config_tiers :
    (∀ s : ℚ, 100 < s → optimize_whisper_config s = ⟨8, "int8", 3⟩) ∧
    (∀ s : ℚ, 50 < s → s ≤ 100 → optimize_whisper_config s = ⟨12, "float16", 4⟩) ∧
    (∀ s : ℚ, s ≤ 50 → optimize_whisper_config s = ⟨16, "float16", 5⟩) ∧
    optimize_whisper_config 100 = ⟨12, "float16", 4⟩ ∧
    (optimize_whisper_config 120 = ⟨8, "int8", 3⟩ ∧ is_large_file 120 = true) := by
  refine ⟨?_, ?_, ?_, ?_, ?_, ?_⟩
  · intro s h
    simp only [optimize_whisper_config]
    split_ifs with h1 h2 <;> first | rfl | linarith
  · intro s h h'
    simp only [optimize_whisper_config]
    split_ifs with h1 h2 <;> first | rfl | linarith
  · intro s h
    simp only [optimize_whisper_config]
    split_ifs with h1 h2 <;> first | rfl | linarith
  · norm_num [optimize_whisper_config]
  · norm_num [optimize_whisper_config]
  · norm_num [is_large_file]

/-- Witness for C2: the tier theorem applied at 120, 60 and 10 MB. -/
theorem optimize_whisper_config_tiers_witness :
    optimize_whisper_config 120 = ⟨8, "int8", 3⟩ ∧
    optimize_whisper_config 60 = ⟨12, "float16", 4⟩ ∧
    optimize_whisper_config 10 = ⟨16, "float16", 5⟩ :=
  ⟨optimize_whisper_config_tiers.1 120 (by norm_num),
   optimize_whisper_config_tiers.2.1 60 (by norm_num) (by norm_num),
   optimize_whisper_config_tiers.2.2.1 10 (by norm_num)⟩

/-- Accumulator form of the text-joining fold of `transcribe_audio`. -/
theorem transcribe_segments_text_foldl (ts : List String) :
    ∀ acc : String,
      ts.foldl (fun a t => a ++ t ++ " ") acc =
        acc ++ ts.foldl (fun a t => a ++ t ++ " ") "" := by
  induction ts with
  | nil => intro acc; simp [List.foldl]
  | cons t rest ih =>
    intro acc
    simp only [List.foldl]
    rw [ih (acc ++ t ++ " "), ih ("" ++ t ++ " ")]
    simp [String.append_assoc]

/-- C3 counterexample: the large-file branch of `transcribe_audio` appends
a space after every segment text, including the last, so the final
transcript carries a trailing separator, contradicting the claim that the
result is exactly `t1 ++ " " ++ ... ++ " " ++ tn`. -/
theorem transcribe_segments_text_trailing_space :
    transcribe_segments_text ["hello", "world"] = "hello world " ∧
    transcribe_segments_text ["hello", "world"] ≠ "hello world" := by
  exact ⟨rfl, by decide⟩

/-- C3 (amended): in the large-file branch, for every non-empty list of
per-segment texts the final transcript is the texts joined in original
order with single-space separators, followed by one trailing space:
`t1 ++ " " ++ ... ++ " " ++ tn ++ " "`. -/
theorem transcribe_segments_text_join (ts : List String) (h : ts ≠ []) :
    transcribe_segments_text ts = spaceJoined ts ++ " " := by
  induction ts with
  | nil => exact absurd rfl h
  | cons t rest ih =>
    have hstep : transcribe_segments_text (t :: rest) =
        ("" ++ t ++ " ") ++ transcribe_segments_text rest := by
      show List.foldl (fun a t => a ++ t ++ " ") ("" ++ t ++ " ") rest =
          ("" ++ t ++ " ") ++ List.foldl (fun a t => a ++ t ++ " ") "" rest
      exact transcribe_segments_text_foldl rest ("" ++ t ++ " ")
    cases rest with
    | nil =>
      rw [hstep]
      show ("" ++ t ++ " ") ++ transcribe_segments_text [] = spaceJoined [t] ++ " "
      simp [transcribe_segments_text, spaceJoined]
    | cons u us =>
      rw [hstep, ih (List.cons_ne_nil u us)]
      have hsj : spaceJoined (t :: u :: us) = t ++ " " ++ spaceJoined (u :: us) := rfl
      rw [hsj]
      simp [String.append_assoc]

/-- Witness for C3 (amended): the joining theorem at a two-element list. -/
theorem transcribe_segments_text_join_witness :
    transcribe_segments_text ["hello", "world"] = spaceJoined ["hello", "world"] ++ " " :=
  transcribe_segments_text_join ["hello", "world"] (List.cons_ne_nil _ _)

/-- C10: `split_audio` is total exactly when the window
`segment_length_sec * sample_rate` is positive: a zero `sample_rate` or
`segment_length_sec` makes the `//` and `%` raise `ZeroDivisionError`
(modelled by `none`); the pipeline's call site
(`split_audio(audio, sample_rate=16000, segment_length_sec=30)` in
`src/app.py`) always returns normally. -/
theorem split_audio_zero_window :
    (∀ (audio : List ℚ) (sample_rate segment_length_sec : Nat),
        split_audio audio sample_rate segment_length_sec = none ↔
          sample_rate = 0 ∨ segment_length_sec = 0) ∧
    (∀ audio : List ℚ,
        ∃ segs, split_audio audio APP_SAMPLE_RATE APP_SEGMENT_LENGTH_SEC = some segs) := by
  constructor
  · intro audio sample_rate segment_length_sec
    simp only [split_audio]
    split_ifs with h h2
    · simp only [Nat.mul_eq_zero] at h
      simp [h]
      tauto
    · simp only [Nat.mul_eq_zero] at h
      simp
      tauto
    · simp only [Nat.mul_eq_zero] at h
      simp
      tauto
  · intro audio
    simp only [split_audio, APP_SAMPLE_RATE, APP_SEGMENT_LENGTH_SEC]
    norm_num
    split_ifs <;> exact ⟨_, rfl⟩

/-- Witness for C10: a zero sample rate fails, the pipeline's constants
succeed. -/
theorem split_audio_zero_window_witness :
    split_audio ([1, 2, 3] : List ℚ) 0 5 = none ∧
    ∃ segs, split_audio ([1] : List ℚ) APP_SAMPLE_RATE APP_SEGMENT_LENGTH_SEC = some segs :=
  ⟨(split_audio_zero_window.1 [1, 2, 3] 0 5).mpr (Or.inl rfl),
   split_audio_zero_window.2 [1]⟩

/-- C4 counterexample: for a fenced reply that fails to parse, the
`raw_response` field holds the first 200 characters of the fence-stripped
text (`response_text` has been rebound before the slice at line 112), not
of the raw reply, contradicting the claim for non-fence-free replies. -/
theorem generate_query_raw_response_not_raw_reply :
    generate_query (fun _ => Except.ok "```json\nnope\n```") "t" ImageInput.noPath =
      Json.obj [("error", Json.str "Could not parse response as JSON"),
                ("transcript", Json.str "t"),
                ("raw_response", Json.str "nope")] ∧
    pyTake 200 "```json\nnope\n```" ≠ "nope" := by
  exact ⟨rfl, by decide⟩

/-- C4 (amended): for every model reply whose extracted text fails to
parse as JSON, `generate_query` returns the error payload with message
exactly "Could not parse response as JSON", the transcript unchanged, and
`raw_response` equal to the first 200 characters of the extracted
(fence-stripped) text — which coincides with the first 200 characters of
the raw reply whenever the reply is fence-free, as in the
"not json at all" scenario. -/
theorem generate_query_parse_failure
    (model : List ContentPart → Except String String)
    (transcript : String) (image_path : ImageInput) (reply : String)
    (hok : model (buildContent transcript image_path) = Except.ok reply)
    (hparse : json_loads (extract_response_text reply) = none) :
    generate_query model transcript image_path =
      Json.obj [("error", Json.str "Could not parse response as JSON"),
                ("transcript", Json.str transcript),
                ("raw_response", Json.str (pyTake 200 (extract_response_text reply)))] ∧
    (pyContains reply "```" = false →
      extract_response_text reply = reply) := by
  constructor
  · simp only [generate_query, hok, hparse]
  · exact extract_response_text_no_fence reply

/-- Witness for C4 (amended): the fence-free reply "not json at all"
produces the error payload whose `raw_response` is the reply itself (its
first 200 characters). -/
theorem generate_query_parse_failure_witness :
    generate_query (fun _ => Except.ok "not json at all") "t" ImageInput.noPath =
      Json.obj [("error", Json.str "Could not parse response as JSON"),
                ("transcript", Json.str "t"),
                ("raw_response", Json.str "not json at all")] := by
  have h := generate_query_parse_failure (fun _ => Except.ok "not json at all")
    "t" ImageInput.noPath "not json at all" rfl (by rfl)
  exact h.1

/-- C5 counterexample: on the reply `"```json\nx\n```"` the code extracts
`"x"` (the `.strip()` removes the surrounding newlines), while the content
between the `"```json"` fence and the next `"```"` fence is `"\nx\n"`, so
the extracted text is not the content between the fences as claimed. -/
theorem extract_response_text_strips :
    extract_response_text "```json\nx\n```" = "x" ∧
    spec_extract "```json\nx\n```" = "\nx\n" ∧
    ("x" : String) ≠ "\nx\n" := by
  exact ⟨rfl, rfl, by decide⟩

/-- C5 (amended): the response normalization of `generate_query` follows
the three-case fence policy with the extracted content additionally
stripped of leading and trailing whitespace in the two fenced cases: if
the reply contains "```json" the result is the stripped content between
that fence and the next "```"; else if it contains "```" the stripped
content between the first pair of fences; else the reply unmodified (so
extraction is the identity on fence-free replies); and the scenario reply
parses to the success payload
`\x7b"items":[\x7b"description":"blue shirt","max_price":30\x7d]\x7d`. -/
theorem extract_response_text_policy :
    (∀ r : String,
      extract_response_text r =
        (if pyContains r "```json" then pyStrip (spec_extract r)
         else if pyContains r "```" then pyStrip (spec_extract r)
         else r)) ∧
    (∀ r : String, pyContains r "```" = false → extract_response_text r = r) ∧
    json_loads (extract_response_text
        "```json\n\x7b\"items\":[\x7b\"description\":\"blue shirt\",\"max_price\":30\x7d]\x7d\n```") =
      some (Json.obj [("items", Json.arr
        [Json.obj [("description", Json.str "blue shirt"),
                   ("max_price", Json.num 30)]])]) := by
  refine ⟨?_, ?_, ?_⟩
  · intro r
    cases h1 : pyContains r "```json" <;> cases h2 : pyContains r "```" <;>
      simp [extract_response_text, spec_extract, h1, h2]
  · exact extract_response_text_no_fence
  · rfl

/-- Witness for C5 (amended): the policy theorem applied to a fence-free
reply. -/
theorem extract_response_text_policy_witness :
    pyContains "plain text" "```" = false ∧
    extract_response_text "plain text" = "plain text" :=
  ⟨rfl, extract_response_text_policy.2.1 "plain text" rfl⟩

/-- C7: `generate_query` never lets an exception propagate: the whole
model call and parse sit inside `try/except Exception`, so it always
returns a value, and if the model invocation raises with message `m` the
result is the error payload with message "Failed to generate query: "
followed by `m`, together with the transcript. -/
theorem generate_query_invocation_error
    (model : List ContentPart → Except String String)
    (transcript : String) (image_path : ImageInput) (m : String)
    (h : model (buildContent transcript image_path) = Except.error m) :
    generate_query model transcript image_path =
      Json.obj [("error", Json.str ("Failed to generate query: " ++ m)),
                ("transcript", Json.str transcript)] := by
  simp only [generate_query, h]

/-- Witness for C7: a model whose invocation raises "API error". -/
theorem generate_query_invocation_error_witness :
    generate_query (fun _ => Except.error "API error") "test transcript" ImageInput.noPath =
      Json.obj [("error", Json.str "Failed to generate query: API error"),
                ("transcript", Json.str "test transcript")] :=
  generate_query_invocation_error (fun _ => Except.error "API error")
    "test transcript" ImageInput.noPath "API error" rfl

/-- C8 counterexample: when the model reply is valid JSON that is not an
object with the success shape — here the array `[1, 2]` — `generate_query`
returns the parsed value as-is (line 106 returns `json.loads`'s result
unvalidated), which matches neither the success shape nor the error
shape, so the returned values do not form the claimed tagged union. -/
theorem generate_query_not_tagged_union :
    generate_query (fun _ => Except.ok "[1, 2]") "t" ImageInput.noPath =
      Json.arr [Json.num 1, Json.num 2] ∧
    isSuccessPayload (Json.arr [Json.num 1, Json.num 2]) = false ∧
    isErrorPayload (Json.arr [Json.num 1, Json.num 2]) = false := by
  exact ⟨rfl, rfl, rfl⟩

/-- C8 (amended): every value returned by `generate_query` is either the
JSON value parsed from the (fence-stripped) model reply, returned as-is —
it has the success shape only when the model follows the requested schema
— or one of the two error payloads, which always have the error shape
`\x7berror: string, transcript: string, raw_response?: string\x7d` and never the
success shape. -/
theorem generate_query_result_shape
    (model : List ContentPart → Except String String)
    (transcript : String) (image_path : ImageInput) :
    (∃ reply parsed,
        model (buildContent transcript image_path) = Except.ok reply ∧
        json_loads (extract_response_text reply) = some parsed ∧
        generate_query model transcript image_path = parsed) ∨
    (isErrorPayload (generate_query model transcript image_path) = true ∧
     isSuccessPayload (generate_query model transcript image_path) = false) := by
  cases hm : model (buildContent transcript image_path) with
  | error e =>
    right
    constructor <;> simp [generate_query, hm, isErrorPayload, isSuccessPayload, lookupMember, isJsonStr]
  | ok reply =>
    cases hp : json_loads (extract_response_text reply) with
    | some parsed =>
      left
      exact ⟨reply, parsed, rfl, hp, by simp [generate_query, hm, hp]⟩
    | none =>
      right
      constructor <;> simp [generate_query, hm, hp, isErrorPayload, isSuccessPayload, lookupMember, isJsonStr]

/-- C9 counterexample: a missing image path is silently skipped by the
`if image_path and os.path.exists(image_path)` guard, so the call
proceeds with the transcript alone and returns an ordinary success
payload — no `InputError` (or any error) is surfaced to the caller. -/
theorem generate_query_missing_image_not_surfaced :
    generate_query (fun _ => Except.ok "\x7b\"items\": []\x7d") "t" (ImageInput.missing "photo.jpg") =
      Json.obj [("items", Json.arr [])] ∧
    isErrorPayload (Json.obj [("items", Json.arr [])]) = false := by
  exact ⟨rfl, rfl⟩

/-- C9 (amended): a missing (`os.path.exists` false) or unreadable
(`Image.open` raises, caught and printed) image is silently ignored: the
model receives exactly the content it would receive with no image at all,
and the result of `generate_query` is unchanged; the failure is not
surfaced to the caller. -/
theorem generate_query_image_failure_ignored
    (model : List ContentPart → Except String String)
    (transcript path : String) :
    buildContent transcript (ImageInput.missing path) =
      buildContent transcript ImageInput.noPath ∧
    buildContent transcript (ImageInput.unreadable path) =
      buildContent transcript ImageInput.noPath ∧
    generate_query model transcript (ImageInput.missing path) =
      generate_query model transcript ImageInput.noPath ∧
    generate_query model transcript (ImageInput.unreadable path) =
      generate_query model transcript ImageInput.noPath := by
  exact ⟨rfl, rfl, rfl, rfl⟩

/-- C6: in `WhisperTranscriber.transcribe`, if the underlying model call
fails with an error whose message contains "language" (case-insensitively)
exactly one retry is made, with the language option omitted entirely, and
its outcome — success or failure — is final; every other underlying
failure is re-raised unchanged with no retry (the spec's
`TranscriptionError` taxonomy entry: the repository defines no exception
class of that name; the propagated model exception is that failure). -/
theorem transcribe_language_retry
    (model : Option String → Except String TranscriptionResult)
    (language : Option String) (e : String) :
    (model (language_options language) = Except.error e →
      error_indicates_language e = true →
      transcribe_calls model language = (model none, [language_options language, none])) ∧
    (model (language_options language) = Except.error e →
      error_indicates_language e = false →
      transcribe_calls model language = (Except.error e, [language_options language])) ∧
    (∀ r, model (language_options language) = Except.ok r →
      transcribe_calls model language = (Except.ok r, [language_options language])) := by
  refine ⟨?_, ?_, ?_⟩
  · intro h1 h2
    simp [transcribe_calls, h1, h2]
  · intro h1 h2
    simp [transcribe_calls, h1, h2]
  · intro r h1
    simp [transcribe_calls, h1]

/-- Witness for C6: a model that rejects the language option "xx" with
message "unsupported language: xx" and succeeds when called without
options; the trace shows the original call and exactly one retry with the
language omitted, and the retry's result is returned. -/
theorem transcribe_language_retry_witness :
    transcribe_calls
      (fun opts =>
        match opts with
        | some _ => Except.error "unsupported language: xx"
        | none => Except.ok ⟨"hola", some "es", none, 0⟩)
      (some "xx") =
    (Except.ok ⟨"hola", some "es", none, 0⟩, [some "xx", none]) := by
  have h := (transcribe_language_retry
    (fun opts =>
      match opts with
      | some _ => Except.error "unsupported language: xx"
      | none => Except.ok ⟨"hola", some "es", none, 0⟩)
    (some "xx") "unsupported language: xx").1 rfl rfl
  exact h

/-- Concatenating the full windows of length `sl` with the tail left after
`n` windows restores the list. -/
theorem split_chunks_join {α : Type} (sl : Nat) (l : List α) :
    ∀ n : Nat, ((List.range n).map (fun i => (l.drop (i * sl)).take sl)).flatten
      ++ l.drop (n * sl) = l := by
  intro n
  induction n with
  | zero => simp
  | succ n ih =>
    rw [List.range_succ, List.map_append, List.flatten_append]
    have hdd : l.drop ((n + 1) * sl) = (l.drop (n * sl)).drop sl := by
      rw [List.drop_drop]
      congr 1
      ring
    simp only [List.map_cons, List.map_nil, List.flatten_cons, List.flatten_nil, List.append_nil]
    rw [List.append_assoc, hdd, List.take_append_drop]
    exact ih

/-- The branch structure of `split_audio` once the window is non-zero. -/
theorem split_audio_eq {α : Type} (l : List α) (sample_rate segment_length_sec : Nat)
    (h : segment_length_sec * sample_rate ≠ 0) :
    split_audio l sample_rate segment_length_sec =
      (if l.length % (segment_length_sec * sample_rate) > 0 then
        some (((List.range (l.length / (segment_length_sec * sample_rate))).map
          (fun i => (l.drop (i * (segment_length_sec * sample_rate))).take
            (segment_length_sec * sample_rate))) ++
          [l.drop ((l.length / (segment_length_sec * sample_rate)) *
            (segment_length_sec * sample_rate))])
      else
        some ((List.range (l.length / (segment_length_sec * sample_rate))).map
          (fun i => (l.drop (i * (segment_length_sec * sample_rate))).take
            (segment_length_sec * sample_rate)))) := by
  simp only [split_audio]
  rw [if_neg h]

/-- C1: for every sample list, `sample_rate ≥ 1` and
`segment_length_sec ≥ 1`, `split_audio` returns
`⌈L / (W*R)⌉ = (L + W*R - 1) / (W*R)` segments, each of length `W*R`
except possibly the last, whose in-order concatenation is exactly the
input (hence chronological order and no overlap); an input with
`0 < L < W*R` yields the single segment equal to the whole input. -/
theorem split_audio_correct {α : Type} (audio : List α) (sample_rate segment_length_sec : Nat)
    (hR : 1 ≤ sample_rate) (hW : 1 ≤ segment_length_sec) :
    ∃ segs, split_audio audio sample_rate segment_length_sec = some segs ∧
      segs.length = (audio.length + segment_length_sec * sample_rate - 1) /
        (segment_length_sec * sample_rate) ∧
      (∀ s ∈ segs.dropLast, s.length = segment_length_sec * sample_rate) ∧
      segs.flatten = audio ∧
      ((0 < audio.length ∧ audio.length < segment_length_sec * sample_rate) →
        segs = [audio]) := by
  have hpos : 0 < segment_length_sec * sample_rate := Nat.mul_pos hW hR
  rw [split_audio_eq audio sample_rate segment_length_sec (Nat.pos_iff_ne_zero.mp hpos)]
  obtain ⟨sl, hslv⟩ : ∃ sl, segment_length_sec * sample_rate = sl := ⟨_, rfl⟩
  rw [hslv] at hpos ⊢
  have hjoin := split_chunks_join sl audio (audio.length / sl)
  have hdm : sl * (audio.length / sl) + audio.length % sl = audio.length :=
    Nat.div_add_mod audio.length sl
  have hlen : ∀ s ∈ (List.range (audio.length / sl)).map
      (fun i => (audio.drop (i * sl)).take sl), s.length = sl := by
    intro s hs
    obtain ⟨i, hi, rfl⟩ := List.mem_map.mp hs
    rw [List.mem_range] at hi
    have h1 : (i + 1) * sl ≤ (audio.length / sl) * sl :=
      Nat.mul_le_mul_right _ hi
    have h2 : (audio.length / sl) * sl ≤ audio.length := Nat.div_mul_le_self _ _
    have h3 : i * sl + sl ≤ audio.length := by
      rw [Nat.succ_mul] at h1
      omega
    simp only [List.length_take, List.length_drop]
    omega
  by_cases hr : 0 < audio.length % sl
  · rw [if_pos hr]
    refine ⟨_, rfl, ?_, ?_, ?_, ?_⟩
    · -- segment count with a remainder: n + 1 = ceil
      rw [List.length_append, List.length_map, List.length_range]
      have hlt : audio.length % sl < sl := Nat.mod_lt _ hpos
      have hsplit : audio.length + sl - 1 =
          sl * (audio.length / sl) + (audio.length % sl + sl - 1) := by
        omega
      rw [hsplit, Nat.mul_add_div hpos]
      have : (audio.length % sl + sl - 1) / sl = 1 :=
        Nat.div_eq_of_lt_le (by omega) (by omega)
      rw [this]
      simp
    · intro s hs
      rw [List.dropLast_concat] at hs
      exact hlen s hs
    · rw [List.flatten_append]
      simpa using hjoin
    · rintro ⟨h0, h1⟩
      have hn0 : audio.length / sl = 0 := Nat.div_eq_of_lt h1
      rw [hn0]
      simp
  · rw [if_neg hr]
    have hr0 : audio.length % sl = 0 := by omega
    refine ⟨_, rfl, ?_, ?_, ?_, ?_⟩
    · rw [List.length_map, List.length_range]
      have hsplit : audio.length + sl - 1 =
          sl * (audio.length / sl) + (sl - 1) := by
        omega
      rw [hsplit, Nat.mul_add_div hpos]
      have : (sl - 1) / sl = 0 := Nat.div_eq_of_lt (by omega)
      rw [this]
      simp
    · intro s hs
      exact hlen s (List.dropLast_subset _ hs)
    · have hfull : (audio.length / sl) * sl = audio.length :=
        Nat.div_mul_cancel (Nat.dvd_of_mod_eq_zero hr0)
      rw [hfull] at hjoin
      simpa [List.drop_length] using hjoin
    · rintro ⟨h0, h1⟩
      have := Nat.mod_eq_of_lt h1
      omega

/-- Witness for C1: `split_audio` on a three-sample list with a window of
two samples returns the two chronological segments whose concatenation is
the input. -/
theorem split_audio_correct_witness :
    ∃ segs, split_audio ([10, 20, 30] : List Nat) 2 1 = some segs ∧
      segs.flatten = [10, 20, 30] := by
  obtain ⟨segs, h1, _, _, h4, _⟩ :=
    split_audio_correct ([10, 20, 30] : List Nat) 2 1 (by decide) (by decide)
  exact ⟨segs, h1, h4⟩
